import Mathlib

/-!
Shallow embedding of the country-dashboard backend
(`Backend/utils.py`, `Backend/api.py`, `Backend/main.py`).

Python numbers (int / float) are idealized as exact rationals `ℚ`; the only
irrational operation, `variance ** 0.5`, is modelled with `Real.sqrt`.
Python `round(x, 2)` is modelled as round-half-up to two decimals; no value
appearing in any concrete claim instance sits on a rounding tie, so the
difference from float bankers rounding is immaterial there.
Country records are Python dicts with string keys holding either strings or
numbers; they are modelled as association lists.  Code paths that can raise
(`KeyError` on direct indexing, `TypeError` on comparing a string with a
number, `AttributeError` on calling `.lower()` on a number) are modelled in
the `Except` monad, and the source's `try/except` blocks as matches on the
resulting value.
-/

namespace Dashboard

/-- A dynamic value stored in a country record: a JSON string or a number. -/
inductive Value where
  | str : String → Value
  | num : ℚ → Value
deriving DecidableEq

/-- A Python dict with string keys, as an association list (keys are unique in
all records built by the code; `lookup` returns the first binding). -/
abbrev Record := List (String × Value)

/-- `d[k]` as an optional read. -/
def Record.lookup (r : Record) (k : String) : Option Value :=
  List.lookup k r

/-- Python `d.get(k, default)`. -/
def Record.getD (r : Record) (k : String) (d : Value) : Value :=
  (r.lookup k).getD d

/-- Python exceptions reachable in the embedded code paths. -/
inductive PyErr where
  | keyError
  | typeError
  | attrError
  | valueError
deriving DecidableEq

/-- Python `v > 0`: numbers compare; a string compared against a number raises
`TypeError`. -/
def Value.gtZero : Value → Except PyErr Bool
  | .num q => .ok (decide (0 < q))
  | .str _ => .error .typeError

/-- Python `v.lower()`: lower-cases a string; on a number it raises
`AttributeError`. -/
def Value.lower : Value → Except PyErr String
  | .str s => .ok s.toLower
  | .num _ => .error .attrError

/-- Python `round(x, 2)` over exact rationals: round half up to two decimals. -/
def round2 (q : ℚ) : ℚ :=
  ((round (100 * q) : ℤ) : ℚ) / 100

/-- Python `round(x, 2)` on a real value (used after `** 0.5`). -/
noncomputable def round2R (x : ℝ) : ℝ :=
  ((round (100 * x) : ℤ) : ℝ) / 100

/-- utils.calculate_density: 0.0 for non-positive area, otherwise
`round(population / area, 2)`.  (The `except ZeroDivisionError` branch of the
source is unreachable: the guard already excludes `area = 0`.) -/
def calculate_density (population : ℚ) (area : ℚ) : ℚ :=
  if area ≤ 0 then 0 else round2 (population / area)

/-- One raw REST-countries entry (`api.get_countries` input): every field may
be absent.  `name` is itself an object whose `common` key may be missing
(`some none`), `languages` maps codes to display names, `currencies` maps
codes to an object that may (`some n`) or may not (`none`) carry a
well-formed name. -/
structure RawCountry where
  name : Option (Option String)
  population : Option ℚ
  area : Option ℚ
  region : Option String
  subregion : Option String
  languages : List (String × String)
  currencies : List (String × Option String)
deriving DecidableEq

/-- Python `", ".join(parts) or "N/A"`: the empty string is falsy. -/
def joinOrNA (parts : List String) : String :=
  let j := String.intercalate ", " parts
  if j = "" then "N/A" else j

/-- The per-entry body of api.get_countries: defaulting extraction of each
field, language / currency joining, density derivation, and the structured
dict in source key order. -/
def normalizeCountry (c : RawCountry) : Record :=
  let name := (c.name.getD none).getD "N/A"
  let population := c.population.getD 0
  let area := c.area.getD 0
  let region := c.region.getD "N/A"
  let subregion := c.subregion.getD "N/A"
  let languages := joinOrNA (c.languages.map Prod.snd)
  let currencies := joinOrNA (c.currencies.filterMap
    (fun p => p.2.map (fun n => p.1 ++ " (" ++ n ++ ")")))
  let density := calculate_density population area
  [("Nombre", Value.str name),
   ("Población", Value.num population),
   ("Área(km²)", Value.num area),
   ("Densidad(hab/km²)", Value.num density),
   ("Región", Value.str region),
   ("Subregión", Value.str subregion),
   ("Idiomas", Value.str languages),
   ("Monedas", Value.str currencies)]

/-- api.get_countries on an already-decoded payload: normalize every entry. -/
def get_countries (raws : List RawCountry) : List Record :=
  raws.map normalizeCountry

/-- `statistics.mean` / `sum(values) / len(values)`: the exact mean. -/
def pyMean (l : List ℚ) : ℚ :=
  l.sum / (l.length : ℚ)

/-- Python `sorted(values)` on numbers.  (Any correct ascending sort of
rationals produces the same list, so insertion sort stands in for timsort.) -/
def pySorted (l : List ℚ) : List ℚ :=
  l.insertionSort (· ≤ ·)

/-- The median formula shared by `statistics.median` and main.py: middle
element for an odd count, mean of the two middle elements for an even one. -/
def pyMedian (l : List ℚ) : ℚ :=
  let s := pySorted l
  if l.length % 2 = 1 then s.getD (l.length / 2) 0
  else (s.getD (l.length / 2 - 1) 0 + s.getD (l.length / 2) 0) / 2

/-- `statistics.variance`: the sample variance, denominator `n - 1`, taken
from the exact (unrounded) mean. -/
def sampleVariance (l : List ℚ) : ℚ :=
  (l.map (fun x => (x - pyMean l) ^ 2)).sum / ((l.length : ℚ) - 1)

/-- `sum((x - m) ** 2 for x in values) / len(values)` as in main.py:
population variance with the deviations taken from a given value `m`. -/
def popVarianceFrom (m : ℚ) (l : List ℚ) : ℚ :=
  (l.map (fun x => (x - m) ^ 2)).sum / (l.length : ℚ)

/-- The utils.py comprehension
`[c[metric] for c in data if c.get(metric, 0) > 0]`, left to right: a string
value at the metric key raises `TypeError` at the `> 0` comparison; a missing
key contributes the default `0`, which fails the filter. -/
def qualifyingSample (metric : String) : List Record → Except PyErr (List ℚ)
  | [] => .ok []
  | r :: rest =>
    match r.getD metric (Value.num 0) with
    | Value.str _ => .error PyErr.typeError
    | Value.num q =>
      if 0 < q then (qualifyingSample metric rest).map (fun tl => q :: tl)
      else qualifyingSample metric rest

/-- The result shape shared by utils.calculate_statistics and the main.py
stats endpoint. -/
structure Stats where
  mean : ℚ
  median : ℚ
  variance : ℚ
  std_dev : ℝ

/-- The all-zero sentinel returned for an empty or failing sample. -/
def zeroStats : Stats :=
  ⟨0, 0, 0, 0⟩

/-- utils.calculate_statistics: positive-value filter, all-zero result on an
empty sample and on any exception, `statistics.variance` (sample variance)
guarded by `len(values) > 1`, and `round(variance ** 0.5, 2)` on the already
rounded variance, guarded by `variance > 0`. -/
noncomputable def calculate_statistics (data : List Record) (metric : String) : Stats :=
  match qualifyingSample metric data with
  | .error _ => zeroStats
  | .ok values =>
    if values = [] then zeroStats
    else
      let mean := round2 (pyMean values)
      let median := round2 (pyMedian values)
      let variance := if 1 < values.length then round2 (sampleVariance values) else 0
      let std_dev : ℝ := if 0 < variance then round2R (Real.sqrt (variance : ℝ)) else 0
      ⟨mean, median, variance, std_dev⟩

/-- HTTP-level failures of the main.py endpoints: a 400 response or a 500
response.  An `HTTPException` raised inside a `try` block whose last clause is
`except Exception` is converted by that clause into a 500. -/
inductive HttpErr where
  | badRequest
  | internal
deriving DecidableEq

/-- The main.py comprehension `[c[f] for c in countries if c[f] > 0]`:
direct indexing, so a missing key raises `KeyError`; a string value raises
`TypeError` at the comparison. -/
def strictSample (field : String) : List Record → Except PyErr (List ℚ)
  | [] => .ok []
  | r :: rest =>
    match r.lookup field with
    | none => .error PyErr.keyError
    | some (Value.str _) => .error PyErr.typeError
    | some (Value.num q) =>
      if 0 < q then (strictSample field rest).map (fun tl => q :: tl)
      else strictSample field rest

/-- The metric-name dispatch of the main.py stats endpoint. -/
def metricField (metric : String) : Option String :=
  if metric = "population" then some "Población"
  else if metric = "area" then some "Área(km²)"
  else if metric = "density" then some "Densidad(hab/km²)"
  else none

/-- The body of the main.py `/api/v1/stats` handler.  An unknown metric hits
`raise HTTPException(400)` inside the `try`, which `except Exception` turns
into a 500; `KeyError` / `TypeError` also land in `except Exception` (500);
an empty sample raises `ZeroDivisionError` at the mean, answered with a 400.
The mean is rounded before the variance uses it, and the variance is rounded
before `** 0.5`; the median is not rounded. -/
noncomputable def calculate_stats (countries : List Record) (metric : String) :
    Except HttpErr Stats :=
  match metricField metric with
  | none => .error HttpErr.internal
  | some f =>
    match strictSample f countries with
    | .error _ => .error HttpErr.internal
    | .ok values =>
      if values = [] then .error HttpErr.badRequest
      else
        let mean := round2 (pyMean values)
        let median := pyMedian values
        let variance := round2 (popVarianceFrom mean values)
        .ok ⟨mean, median, variance, round2R (Real.sqrt (variance : ℝ))⟩

/-- One entry of the main.py top-10 response: `{"name": c["Nombre"],
"metric_value": c[field]}`. -/
structure TopEntry where
  name : Value
  metric_value : ℚ
deriving DecidableEq

/-- The metric-name dispatch of the main.py top-10 endpoint (ranking accepts
only population and area). -/
def rankField (metric : String) : Option String :=
  if metric = "population" then some "Población"
  else if metric = "area" then some "Área(km²)"
  else none

/-- Sort-key extraction `c[field]` for the ranking endpoint: `KeyError` on a
missing key.  A string value is modelled as a `TypeError` (mixed-type key
comparisons raise in Python; no claim exercises all-string collections). -/
def numField (r : Record) (field : String) : Except PyErr ℚ :=
  match r.lookup field with
  | none => .error PyErr.keyError
  | some (Value.str _) => .error PyErr.typeError
  | some (Value.num q) => .ok q

/-- Python `sorted(countries, key=..., reverse=True)` precomputes every key;
this pairs each record with its key, left to right. -/
def decorate (field : String) : List Record → Except PyErr (List (ℚ × Record))
  | [] => .ok []
  | r :: rest => do
    let q ← numField r field
    let tl ← decorate field rest
    pure ((q, r) :: tl)

/-- The comparison realizing `reverse=True` on precomputed keys: `a` may stay
before `b` iff `b`'s key is not larger.  Ties compare true both ways, which
is what makes a stable sort keep their input order. -/
def descLE (a b : ℚ × Record) : Bool :=
  b.1 ≤ a.1

/-- The `{"name": ..., "metric_value": ...}` projection of the top-10
endpoint; `c["Nombre"]` raises `KeyError` when absent. -/
def projectTop : List (ℚ × Record) → Except PyErr (List TopEntry)
  | [] => .ok []
  | p :: rest =>
    match p.2.lookup "Nombre" with
    | none => .error PyErr.keyError
    | some v => (projectTop rest).map (fun tl => TopEntry.mk v p.1 :: tl)

/-- The body of the main.py `/api/v1/top-10/{metric}` handler, generalized
over the literal slice bound 10 of `sorted(...)[:10]` (the source pins
`n = 10`, see `top_10`).  Python's sort is stable, and every stable sort
produces the same list, here `List.mergeSort`.  `except KeyError` answers
400; everything else (the unknown-metric `raise HTTPException(400)` included)
falls into `except Exception`, answering 500. -/
def topN (countries : List Record) (metric : String) (n : ℕ) :
    Except HttpErr (List TopEntry) :=
  match rankField metric with
  | none => .error HttpErr.internal
  | some f =>
    match decorate f countries with
    | .error PyErr.keyError => .error HttpErr.badRequest
    | .error _ => .error HttpErr.internal
    | .ok keyed =>
      match projectTop ((keyed.mergeSort descLE).take n) with
      | .error PyErr.keyError => .error HttpErr.badRequest
      | .error _ => .error HttpErr.internal
      | .ok out => .ok out

/-- The main.py top-10 handler as written: the slice bound is the literal 10. -/
def top_10 (countries : List Record) (metric : String) : Except HttpErr (List TopEntry) :=
  topN countries metric 10

/-- utils.filter_countries_by_region:
`[c for c in data if c.get("Región", "").lower() == region.lower()]`.
A record whose region value is a number raises `AttributeError` at
`.lower()`. -/
def filter_countries_by_region (data : List Record) (region : String) :
    Except PyErr (List Record) :=
  match data with
  | [] => .ok []
  | r :: rest => do
    let s ← (r.getD "Región" (Value.str "")).lower
    let tl ← filter_countries_by_region rest region
    pure (if s = region.toLower then r :: tl else tl)

/-- Key computation of `max(data, key=lambda x: x.get(metric, 0))`. -/
def maxKey (metric : String) (r : Record) : Except PyErr ℚ :=
  match r.getD metric (Value.num 0) with
  | Value.num q => .ok q
  | Value.str _ => .error PyErr.typeError

/-- Key computation of `min(data, key=lambda x: x.get(metric, float("inf")))`:
the missing-key default is `+∞`. -/
def minKey (metric : String) (r : Record) : Except PyErr (WithTop ℚ) :=
  match r.lookup metric with
  | none => .ok ⊤
  | some (Value.num q) => .ok (q : WithTop ℚ)
  | some (Value.str _) => .error PyErr.typeError

/-- The loop of Python `max` with a key function: a later element replaces
the current best only on a strictly greater key, so the first maximal element
wins. -/
def pyMaxGo {K : Type} [LinearOrder K] (key : Record → Except PyErr K) :
    Record → K → List Record → Except PyErr Record
  | best, _, [] => .ok best
  | best, kb, r :: rest => do
    let kr ← key r
    if kb < kr then pyMaxGo key r kr rest else pyMaxGo key best kb rest

/-- Python `max(data, key=...)`; empty input raises `ValueError` (unreachable
in the source: the caller guards `if not data`). -/
def pyMax {K : Type} [LinearOrder K] (key : Record → Except PyErr K) :
    List Record → Except PyErr Record
  | [] => .error PyErr.valueError
  | b :: rest => do
    let kb ← key b
    pyMaxGo key b kb rest

/-- The loop of Python `min` with a key function: a later element replaces
the current best only on a strictly smaller key. -/
def pyMinGo {K : Type} [LinearOrder K] (key : Record → Except PyErr K) :
    Record → K → List Record → Except PyErr Record
  | best, _, [] => .ok best
  | best, kb, r :: rest => do
    let kr ← key r
    if kr < kb then pyMinGo key r kr rest else pyMinGo key best kb rest

/-- Python `min(data, key=...)`. -/
def pyMin {K : Type} [LinearOrder K] (key : Record → Except PyErr K) :
    List Record → Except PyErr Record
  | [] => .error PyErr.valueError
  | b :: rest => do
    let kb ← key b
    pyMinGo key b kb rest

/-- The result of utils.find_extreme_values: the source's
`{"max": ..., "min": ...}` dict; the empty record plays the role of the `{}`
no-data marker. -/
structure ExtremeResult where
  max : Record
  min : Record
deriving DecidableEq

/-- utils.find_extreme_values: `{"max": {}, "min": {}}` on empty input, the
`max` / `min` builtins with defaulting keys otherwise, and the same empty
dicts from `except Exception`. -/
def find_extreme_values (data : List Record) (metric : String) : ExtremeResult :=
  if data = [] then ⟨[], []⟩
  else
    match (do
      let mx ← pyMax (maxKey metric) data
      let mn ← pyMin (minKey metric) data
      pure (ExtremeResult.mk mx mn) : Except PyErr ExtremeResult) with
    | .ok res => res
    | .error _ => ⟨[], []⟩

/-- utils.find_country_by_name:
`next((c for c in data if c["Nombre"].lower() == name.lower()), None)`.
Direct indexing raises `KeyError` on a record without "Nombre"; `.lower()`
raises `AttributeError` on a numeric name. -/
def find_country_by_name (data : List Record) (name : String) :
    Except PyErr (Option Record) :=
  match data with
  | [] => .ok none
  | r :: rest =>
    match r.lookup "Nombre" with
    | none => .error PyErr.keyError
    | some v => do
      let s ← v.lower
      if s = name.toLower then pure (some r) else find_country_by_name rest name

/-- Modelled from the spec (§4.4 / §7): the rounding-only-at-the-boundary
chain the specification asserts — population variance taken from the
*unrounded* mean, rounded once at its boundary. -/
def boundaryVariance (l : List ℚ) : ℚ :=
  round2 (popVarianceFrom (pyMean l) l)

/-- Modelled from the spec (§4.4 / §7): standard deviation taken from the
*unrounded* variance, rounded once at its boundary. -/
noncomputable def boundaryStdDev (l : List ℚ) : ℝ :=
  round2R (Real.sqrt ((popVarianceFrom (pyMean l) l : ℚ) : ℝ))

/-- Evaluation rule for `round2` at a concrete argument, via the floor
characterization of rounding half up. -/
theorem round2_eq_of {q : ℚ} {n : ℤ} (h1 : (n : ℚ) ≤ 100 * q + 1 / 2)
    (h2 : 100 * q + 1 / 2 < n + 1) : round2 q = (n : ℚ) / 100 := by
  unfold round2
  rw [round_eq, show ⌊100 * q + 1 / 2⌋ = n from Int.floor_eq_iff.mpr ⟨h1, h2⟩]

/-- Evaluation rule for `round2R` at a concrete argument. -/
theorem round2R_eq_of {x : ℝ} {n : ℤ} (h1 : (n : ℝ) ≤ 100 * x + 1 / 2)
    (h2 : 100 * x + 1 / 2 < n + 1) : round2R x = (n : ℝ) / 100 := by
  unfold round2R
  rw [round_eq, show ⌊100 * x + 1 / 2⌋ = n from Int.floor_eq_iff.mpr ⟨h1, h2⟩]

/-- `round(sqrt(125), 2) = 11.18`. -/
theorem sqrt125_round : round2R (Real.sqrt 125) = 1118 / 100 := by
  have hub : Real.sqrt 125 < 11.185 :=
    (Real.sqrt_lt' (by norm_num)).mpr (by norm_num)
  have hlb : (11.175 : ℝ) < Real.sqrt 125 :=
    (Real.lt_sqrt (by norm_num)).mpr (by norm_num)
  have h := round2R_eq_of (x := Real.sqrt 125) (n := 1118)
    (by push_cast; nlinarith) (by push_cast; nlinarith)
  rw [h]
  norm_num

/-- A record carrying only a population field, as in the spec's statistics
scenarios. -/
def popRecord (q : ℚ) : Record :=
  [("Población", Value.num q)]

/-- The spec's statistics scenario collection: qualifying sample
`[10, 20, 30, 40]`. -/
def popSample4 : List Record :=
  [popRecord 10, popRecord 20, popRecord 30, popRecord 40]

/-- The spec's single-point statistics scenario: qualifying sample `[5]`. -/
def popSample1 : List Record :=
  [popRecord 5]

/-- C1 counterexample: on the spec's own scenario sample `[10, 20, 30, 40]`,
utils.calculate_statistics (a cited Statistics Engine implementation) returns
variance `166.67`, not the claimed population variance `125`: it calls
`statistics.variance`, whose denominator is `N - 1`. -/
theorem C1_counterexample :
    (calculate_statistics popSample4 "Población").variance = 16667 / 100 ∧
    (16667 : ℚ) / 100 ≠ 125 := by
  constructor
  · have hq : qualifyingSample "Población" popSample4 = .ok [10, 20, 30, 40] := rfl
    have hsv : sampleVariance [10, 20, 30, 40] = 500 / 3 := by
      norm_num [sampleVariance, pyMean]
    have hr : round2 (500 / 3 : ℚ) = 16667 / 100 := by
      rw [round2_eq_of (q := 500 / 3) (n := 16667) (by norm_num) (by norm_num)]
      norm_num
    simp [calculate_statistics, hq, hsv, hr]
  · norm_num

/-- C1 (amended): the main.py stats endpoint computes population variance
(denominator `N`) — on the scenario sample `[10, 20, 30, 40]` it returns
mean 25.0, median 25.0, variance 125.0, std_dev 11.18 — and a single-point
sample yields variance 0 and std_dev 0 in utils.calculate_statistics;
utils.calculate_statistics instead applies `statistics.variance`, the sample
variance with denominator `N - 1`, whose rounded value on the same sample is
`round(500/3, 2) = 166.67`. -/
theorem C1_amended :
    calculate_stats popSample4 "population" = .ok (Stats.mk 25 25 125 (1118 / 100)) ∧
    (calculate_statistics popSample4 "Población").variance = round2 (sampleVariance [10, 20, 30, 40]) ∧
    sampleVariance [10, 20, 30, 40] = 500 / 3 ∧
    calculate_statistics popSample1 "Población" = Stats.mk 5 5 0 0 := by
  refine ⟨?_, ?_, ?_, ?_⟩
  · have hs : strictSample "Población" popSample4 = .ok [10, 20, 30, 40] := rfl
    have hmean : pyMean [10, 20, 30, 40] = 25 := by norm_num [pyMean]
    have hr25 : round2 (25 : ℚ) = 25 := by
      rw [round2_eq_of (q := 25) (n := 2500) (by norm_num) (by norm_num)]; norm_num
    have hmed : pyMedian [10, 20, 30, 40] = 25 := by
      norm_num [pyMedian, pySorted, List.insertionSort, List.orderedInsert]
    have hpv : popVarianceFrom 25 [10, 20, 30, 40] = 125 := by
      norm_num [popVarianceFrom]
    have hr125 : round2 (125 : ℚ) = 125 := by
      rw [round2_eq_of (q := 125) (n := 12500) (by norm_num) (by norm_num)]; norm_num
    simp [calculate_stats, metricField, hs, hmean, hr25, hmed, hpv, hr125, sqrt125_round]
  · have hq : qualifyingSample "Población" popSample4 = .ok [10, 20, 30, 40] := rfl
    simp [calculate_statistics, hq]
  · norm_num [sampleVariance, pyMean]
  · have hq : qualifyingSample "Población" popSample1 = .ok [5] := rfl
    have hr5 : round2 (5 : ℚ) = 5 := by
      rw [round2_eq_of (q := 5) (n := 500) (by norm_num) (by norm_num)]; norm_num
    have hmean : pyMean [5] = 5 := by norm_num [pyMean]
    have hmed : pyMedian [5] = 5 := by
      norm_num [pyMedian, pySorted, List.insertionSort, List.orderedInsert]
    simp [calculate_statistics, hq, hmean, hmed, hr5]

/-- True when the record does not hold a strictly positive number under key
`k` (missing key, string value, or a non-positive number): such a record
contributes nothing to a qualifying sample. -/
def nonPosAt (r : Record) (k : String) : Bool :=
  match r.lookup k with
  | some (Value.num q) => decide (q ≤ 0)
  | _ => true

/-- True when the record holds a non-positive number under key `k`. -/
def numNonPosAt (r : Record) (k : String) : Bool :=
  match r.lookup k with
  | some (Value.num q) => decide (q ≤ 0)
  | _ => false

theorem qualifyingSample_of_nonPos {metric : String} :
    ∀ {data : List Record}, (∀ r ∈ data, nonPosAt r metric = true) →
      qualifyingSample metric data = .ok [] ∨
      ∃ e, qualifyingSample metric data = .error e
  | [], _ => .inl rfl
  | r :: rest, h => by
    have hr := h r (List.mem_cons_self r rest)
    have hrest := qualifyingSample_of_nonPos (fun x hx => h x (List.mem_cons_of_mem r hx))
    unfold nonPosAt at hr
    rcases hlk : r.lookup metric with _ | v
    · have hd : r.getD metric (Value.num 0) = Value.num 0 := by
        unfold Record.getD; rw [hlk]; rfl
      simp only [qualifyingSample, hd]
      rw [if_neg (by norm_num)]
      exact hrest
    · rcases v with s | q
      · have hd : r.getD metric (Value.num 0) = Value.str s := by
          unfold Record.getD; rw [hlk]; rfl
        simp only [qualifyingSample, hd]
        exact .inr ⟨PyErr.typeError, rfl⟩
      · rw [hlk] at hr
        simp at hr
        have hd : r.getD metric (Value.num 0) = Value.num q := by
          unfold Record.getD; rw [hlk]; rfl
        simp only [qualifyingSample, hd]
        rw [if_neg (not_lt.mpr hr)]
        exact hrest

theorem strictSample_of_numNonPos {f : String} :
    ∀ {data : List Record}, (∀ r ∈ data, numNonPosAt r f = true) →
      strictSample f data = .ok []
  | [], _ => rfl
  | r :: rest, h => by
    have hr := h r (List.mem_cons_self r rest)
    have hrest := strictSample_of_numNonPos (fun x hx => h x (List.mem_cons_of_mem r hx))
    unfold numNonPosAt at hr
    rcases hlk : r.lookup f with _ | v
    · rw [hlk] at hr; simp at hr
    · rcases v with s | q
      · rw [hlk] at hr; simp at hr
      · rw [hlk] at hr
        simp at hr
        simp only [strictSample, hlk]
        rw [if_neg (not_lt.mpr hr)]
        exact hrest

/-- C2 (amended): over an empty qualifying sample (no record holds a strictly
positive value for the metric), utils.calculate_statistics returns the
all-zero stats and never raises; the main.py stats endpoint instead answers
an HTTP 400 "insufficient data" error (its `ZeroDivisionError` handler)
rather than the all-zero stats. -/
theorem C2_amended :
    (∀ (data : List Record) (metric : String),
      (∀ r ∈ data, nonPosAt r metric = true) →
      calculate_statistics data metric = zeroStats) ∧
    (∀ (data : List Record) (metric f : String),
      metricField metric = some f →
      (∀ r ∈ data, numNonPosAt r f = true) →
      calculate_stats data metric = .error HttpErr.badRequest) := by
  constructor
  · intro data metric h
    rcases qualifyingSample_of_nonPos h with hq | ⟨e, hq⟩ <;>
      simp [calculate_statistics, hq]
  · intro data metric f hf h
    have hs := strictSample_of_numNonPos h
    simp [calculate_stats, hf, hs]

/-- C2 amended witness: both parts at concrete inputs. -/
theorem C2_amended_witness :
    calculate_statistics [[("Región", Value.str "X")]] "Población" = zeroStats ∧
    calculate_stats [popRecord 0] "population" = .error HttpErr.badRequest :=
  ⟨C2_amended.1 _ _ (by decide), C2_amended.2 _ _ "Población" rfl (by decide)⟩

/-- C2 counterexample: with a record collection whose qualifying sample for
"population" is empty, the main.py statistics computation (cited by the
claim) does not return the all-zero stats — it fails with an HTTP 400
error. -/
theorem C2_counterexample :
    calculate_stats [popRecord 0] "population" = .error HttpErr.badRequest ∧
    ∀ s : Stats, Except.error (ε := HttpErr) HttpErr.badRequest ≠ Except.ok s := by
  constructor
  · norm_num [calculate_stats, metricField, strictSample, popRecord, Record.lookup,
      List.lookup]
  · intro s h
    exact Except.noConfusion h

/-- `pure` in the `Except` monad is `Except.ok`. -/
theorem pureOk {ε α : Type} (a : α) : (pure a : Except ε α) = Except.ok a := rfl

/-- Reduction of `Except.map` on a success value. -/
theorem mapOk {ε α β : Type} (a : α) (f : α → β) :
    (Except.ok a : Except ε α).map f = Except.ok (f a) := rfl

/-- Reduction of a successful bind in the `Except` monad. -/
theorem okBind {ε α β : Type} (a : α) (f : α → Except ε β) :
    (Except.ok a : Except ε α) >>= f = f a := rfl

/-- Reduction of a failing bind in the `Except` monad. -/
theorem errBind {ε α β : Type} (e : ε) (f : α → Except ε β) :
    (Except.error e : Except ε α) >>= f = Except.error e := rfl

theorem pyMaxGo_const {K : Type} [LinearOrder K] {key : Record → Except PyErr K} {k : K} :
    ∀ {l : List Record} {best : Record}, (∀ r ∈ l, key r = .ok k) →
      pyMaxGo key best k l = .ok best
  | [], _, _ => rfl
  | r :: rest, best, h => by
    have hr := h r (List.mem_cons_self r rest)
    simp only [pyMaxGo, hr, okBind]
    rw [if_neg (lt_irrefl k)]
    exact pyMaxGo_const (fun x hx => h x (List.mem_cons_of_mem r hx))

theorem pyMinGo_const {K : Type} [LinearOrder K] {key : Record → Except PyErr K} {k : K} :
    ∀ {l : List Record} {best : Record}, (∀ r ∈ l, key r = .ok k) →
      pyMinGo key best k l = .ok best
  | [], _, _ => rfl
  | r :: rest, best, h => by
    have hr := h r (List.mem_cons_self r rest)
    simp only [pyMinGo, hr, okBind]
    rw [if_neg (lt_irrefl k)]
    exact pyMinGo_const (fun x hx => h x (List.mem_cons_of_mem r hx))

/-- C3 (amended): the utils-level operations do not reject a metric name that
no record carries: the statistics computation returns the all-zero stats
sentinel, and the extreme-value computation returns the first record as both
maximum and minimum for a nonempty collection — both keys fall back to their
defaults (0 resp. +∞) — while the empty collection gives the empty-dict
marker; the main.py stats endpoint does reject an unknown metric name before
computing, though its `raise HTTPException(400)` is swallowed by the blanket
`except Exception` and resurfaces as a 500 response. -/
theorem C3_amended :
    (∀ (data : List Record) (metric : String),
      (∀ r ∈ data, (r.lookup metric).isNone = true) →
      calculate_statistics data metric = zeroStats) ∧
    (∀ (b : Record) (rest : List Record) (metric : String),
      (∀ r ∈ b :: rest, (r.lookup metric).isNone = true) →
      find_extreme_values (b :: rest) metric = ExtremeResult.mk b b) ∧
    (∀ metric : String, find_extreme_values [] metric = ExtremeResult.mk [] []) ∧
    (∀ (data : List Record) (metric : String), metricField metric = none →
      calculate_stats data metric = .error HttpErr.internal) := by
  refine ⟨?_, ?_, ?_, ?_⟩
  · intro data metric h
    have h0 : ∀ r ∈ data, nonPosAt r metric = true := by
      intro r hr
      have := h r hr
      unfold nonPosAt
      rcases hlk : r.lookup metric with _ | v
      · rfl
      · rw [hlk] at this; simp at this
    rcases qualifyingSample_of_nonPos h0 with hq | ⟨e, hq⟩ <;>
      simp [calculate_statistics, hq]
  · intro b rest metric h
    have hmax : ∀ r ∈ b :: rest, maxKey metric r = .ok 0 := by
      intro r hr
      have := h r hr
      unfold maxKey Record.getD
      rcases hlk : r.lookup metric with _ | v
      · rfl
      · rw [hlk] at this; simp at this
    have hmin : ∀ r ∈ b :: rest, minKey metric r = .ok ⊤ := by
      intro r hr
      have := h r hr
      unfold minKey
      rcases hlk : r.lookup metric with _ | v
      · rfl
      · rw [hlk] at this; simp at this
    have hb := hmax b (List.mem_cons_self b rest)
    have hbm := hmin b (List.mem_cons_self b rest)
    have hgo : pyMaxGo (maxKey metric) b (0 : ℚ) rest = .ok b :=
      pyMaxGo_const (fun x hx => hmax x (List.mem_cons_of_mem b hx))
    have hgo2 : pyMinGo (minKey metric) b (⊤ : WithTop ℚ) rest = .ok b :=
      pyMinGo_const (fun x hx => hmin x (List.mem_cons_of_mem b hx))
    simp [find_extreme_values, pyMax, pyMin, hb, hbm, hgo, hgo2, okBind]
  · intro metric
    rfl
  · intro data metric h
    simp [calculate_stats, h]

/-- C3 amended witness: a concrete collection and the unknown metric name
"Bogus". -/
theorem C3_amended_witness :
    calculate_statistics [popRecord 10] "Bogus" = zeroStats ∧
    find_extreme_values [popRecord 10] "Bogus" = ExtremeResult.mk (popRecord 10) (popRecord 10) ∧
    find_extreme_values [] "Bogus" = ExtremeResult.mk [] [] ∧
    calculate_stats [popRecord 10] "Bogus" = .error HttpErr.internal :=
  ⟨C3_amended.1 _ _ (by decide), C3_amended.2.1 _ _ _ (by decide),
   C3_amended.2.2.1 "Bogus", C3_amended.2.2.2 _ _ (by decide)⟩

/-- C3 counterexample: with the unknown metric name "Bogus" and a nonempty
collection, the utils statistics operation produces exactly the all-zero
stats and the extreme-value operation produces a real max/min record pair —
the partial results the claim says cannot be produced — instead of failing
with an InvalidMetric condition. -/
theorem C3_counterexample :
    calculate_statistics [popRecord 10] "Bogus" = zeroStats ∧
    find_extreme_values [popRecord 10] "Bogus" = ExtremeResult.mk (popRecord 10) (popRecord 10) ∧
    popRecord 10 ≠ ([] : Record) := by
  refine ⟨?_, by decide, by decide⟩
  have hq : qualifyingSample "Bogus" [popRecord 10] = .ok [] := rfl
  simp [calculate_statistics, hq]

/-- C5: for every canonical record produced by the pipeline, the stored
density is exactly `calculate_density population area`, which equals
`round(population / area, 2)` when `area > 0` and `0.0` when `area ≤ 0`;
the normalizer derives density only through this rule. -/
theorem C5_density_invariant (c : RawCountry) :
    (normalizeCountry c).lookup "Densidad(hab/km²)" =
      some (Value.num (calculate_density (c.population.getD 0) (c.area.getD 0))) ∧
    (0 < c.area.getD 0 →
      calculate_density (c.population.getD 0) (c.area.getD 0) =
        round2 (c.population.getD 0 / c.area.getD 0)) ∧
    (c.area.getD 0 ≤ 0 →
      calculate_density (c.population.getD 0) (c.area.getD 0) = 0) := by
  refine ⟨?_, ?_, ?_⟩
  · simp [normalizeCountry, Record.lookup, List.lookup]
  · intro h
    rw [calculate_density, if_neg (not_le.mpr h)]
  · intro h
    rw [calculate_density, if_pos h]

/-- C5 witness: a raw record with population 7 and area 2 (density 3.5), and
one with no area (density 0). -/
theorem C5_density_invariant_witness :
    (normalizeCountry (RawCountry.mk none (some 7) (some 2) none none [] [])).lookup
      "Densidad(hab/km²)" = some (Value.num (calculate_density 7 2)) ∧
    calculate_density 7 2 = round2 (7 / 2) ∧
    calculate_density 0 0 = 0 :=
  ⟨(C5_density_invariant (RawCountry.mk none (some 7) (some 2) none none [] [])).1,
   (C5_density_invariant (RawCountry.mk none (some 7) (some 2) none none [] [])).2.1
     (by norm_num),
   (C5_density_invariant (RawCountry.mk none none none none none [] [])).2.2
     (by norm_num)⟩

/-- C6: a raw record missing every optional field normalizes, without any
failure, to the canonical record with every field at its default: name
"N/A", population 0, area 0, density 0.0, region "N/A", subregion "N/A",
languages "N/A", currencies "N/A". -/
theorem C6_all_defaults (c : RawCountry) (hn : c.name = none)
    (hp : c.population = none) (ha : c.area = none) (hr : c.region = none)
    (hs : c.subregion = none) (hl : c.languages = []) (hc : c.currencies = []) :
    normalizeCountry c =
      [("Nombre", Value.str "N/A"), ("Población", Value.num 0),
       ("Área(km²)", Value.num 0), ("Densidad(hab/km²)", Value.num 0),
       ("Región", Value.str "N/A"), ("Subregión", Value.str "N/A"),
       ("Idiomas", Value.str "N/A"), ("Monedas", Value.str "N/A")] := by
  cases c
  simp only at hn hp ha hr hs hl hc
  subst hn hp ha hr hs hl hc
  rfl

/-- C6 witness: the fully-absent raw record. -/
theorem C6_all_defaults_witness :
    normalizeCountry (RawCountry.mk none none none none none [] []) =
      [("Nombre", Value.str "N/A"), ("Población", Value.num 0),
       ("Área(km²)", Value.num 0), ("Densidad(hab/km²)", Value.num 0),
       ("Región", Value.str "N/A"), ("Subregión", Value.str "N/A"),
       ("Idiomas", Value.str "N/A"), ("Monedas", Value.str "N/A")] :=
  C6_all_defaults (RawCountry.mk none none none none none [] [])
    rfl rfl rfl rfl rfl rfl rfl

/-- A record carrying only a density field. -/
def densRecord (q : ℚ) : Record :=
  [("Densidad(hab/km²)", Value.num q)]

/-- A collection with densities `[0.1, 0.18]`: its exact population variance
`0.0016` rounds to `0.00`, so the code's `round(variance, 2) ** 0.5` chain
collapses the standard deviation to `0.0`. -/
def densSample : List Record :=
  [densRecord (1 / 10), densRecord (9 / 50)]

theorem boundaryStdDev_densSample : boundaryStdDev [1 / 10, 9 / 50] = 1 / 25 := by
  have hpv : popVarianceFrom (pyMean [1 / 10, 9 / 50]) [1 / 10, 9 / 50] = 1 / 625 := by
    norm_num [popVarianceFrom, pyMean]
  unfold boundaryStdDev
  rw [hpv]
  have hc : (((1 / 625 : ℚ)) : ℝ) = 1 / 625 := by norm_num
  rw [hc, show (1 / 625 : ℝ) = (1 / 25) ^ 2 by norm_num,
    Real.sqrt_sq (by norm_num)]
  rw [round2R_eq_of (x := 1 / 25) (n := 4) (by norm_num) (by norm_num)]
  norm_num

/-- Unfolding of the main.py stats endpoint on a successful, nonempty
sample: every downstream statistic consumes the already-rounded upstream
value. -/
theorem calculate_stats_eq (data : List Record) (metric f : String) (values : List ℚ)
    (hf : metricField metric = some f) (hs : strictSample f data = .ok values)
    (hne : values ≠ []) :
    calculate_stats data metric = .ok (Stats.mk
      (round2 (pyMean values))
      (pyMedian values)
      (round2 (popVarianceFrom (round2 (pyMean values)) values))
      (round2R (Real.sqrt
        ((round2 (popVarianceFrom (round2 (pyMean values)) values) : ℚ) : ℝ)))) := by
  simp [calculate_stats, hf, hs, hne]

theorem strictSample_densSample :
    strictSample "Densidad(hab/km²)" densSample = .ok [1 / 10, 9 / 50] := by
  norm_num [strictSample, densSample, densRecord, Record.lookup, List.lookup, Except.map]

theorem calc_stats_densSample :
    calculate_stats densSample "density" = .ok (Stats.mk (7 / 50) (7 / 50) 0 0) := by
  rw [calculate_stats_eq densSample "density" "Densidad(hab/km²)" [1 / 10, 9 / 50]
    rfl strictSample_densSample (by simp)]
  have hmean : pyMean [1 / 10, 9 / 50] = 7 / 50 := by norm_num [pyMean]
  have hr1 : round2 (7 / 50 : ℚ) = 7 / 50 := by
    rw [round2_eq_of (q := 7 / 50) (n := 14) (by norm_num) (by norm_num)]; norm_num
  have hmed : pyMedian [1 / 10, 9 / 50] = 7 / 50 := by
    norm_num [pyMedian, pySorted, List.insertionSort, List.orderedInsert]
  have hpv : popVarianceFrom (7 / 50) [1 / 10, 9 / 50] = 1 / 625 := by
    norm_num [popVarianceFrom]
  have hr0 : round2 (1 / 625 : ℚ) = 0 := by
    rw [round2_eq_of (q := 1 / 625) (n := 0) (by norm_num) (by norm_num)]; norm_num
  have hsd : round2R (Real.sqrt (((0 : ℚ)) : ℝ)) = 0 := by
    norm_num [Real.sqrt_zero, round2R]
  rw [hmean, hr1, hmed, hpv, hr0, hsd]

/-- C4 counterexample: on the densities `[0.1, 0.18]` the main.py stats
computation returns std_dev `0.0`, while the claimed chain — standard
deviation taken from the *unrounded* variance — yields `0.04`: the code's
std_dev is in fact computed from the already-rounded variance (and its
variance from the already-rounded mean), so rounding does compound. -/
theorem C4_counterexample :
    calculate_stats densSample "density" = .ok (Stats.mk (7 / 50) (7 / 50) 0 0) ∧
    boundaryStdDev [1 / 10, 9 / 50] = 1 / 25 ∧
    ((0 : ℝ) ≠ 1 / 25) :=
  ⟨calc_stats_densSample, boundaryStdDev_densSample, by norm_num⟩

/-- C4 (amended): each statistic is rounded once at its own boundary, but the
downstream statistics consume the already-rounded upstream values: the
main.py endpoint computes the variance from the rounded mean and, in both
implementations, the standard deviation from the rounded variance, so
rounding error can compound (densities `[0.1, 0.18]` give std_dev `0.0`
where the unrounded chain gives `0.04`). -/
theorem C4_amended :
    (∀ (data : List Record) (metric f : String) (values : List ℚ),
      metricField metric = some f → strictSample f data = .ok values → values ≠ [] →
      calculate_stats data metric = .ok (Stats.mk
        (round2 (pyMean values))
        (pyMedian values)
        (round2 (popVarianceFrom (round2 (pyMean values)) values))
        (round2R (Real.sqrt
          ((round2 (popVarianceFrom (round2 (pyMean values)) values) : ℚ) : ℝ))))) ∧
    (∀ (data : List Record) (metric : String),
      (calculate_statistics data metric).std_dev =
        (if 0 < (calculate_statistics data metric).variance then
          round2R (Real.sqrt (((calculate_statistics data metric).variance : ℚ) : ℝ))
        else 0)) ∧
    (∃ s : Stats, calculate_stats densSample "density" = .ok s ∧ s.std_dev = 0 ∧
      boundaryStdDev [1 / 10, 9 / 50] = 1 / 25 ∧ (1 / 25 : ℝ) ≠ 0) := by
  refine ⟨calculate_stats_eq, ?_, ?_⟩
  · intro data metric
    rcases hq : qualifyingSample metric data with e | values
    · simp [calculate_statistics, hq, zeroStats]
    · by_cases hne : values = []
      · simp [calculate_statistics, hq, hne, zeroStats]
      · by_cases hv : (0 : ℚ) < (if 1 < values.length then round2 (sampleVariance values) else 0)
        · simp [calculate_statistics, hq, hne, hv]
        · simp [calculate_statistics, hq, hne, hv]
  · exact ⟨Stats.mk (7 / 50) (7 / 50) 0 0, calc_stats_densSample, rfl,
      boundaryStdDev_densSample, by norm_num⟩

/-- C4 amended witness: the endpoint characterization applied to the concrete
density collection, and the utils std_dev characterization at the scenario
collection. -/
theorem C4_amended_witness :
    calculate_stats densSample "density" = .ok (Stats.mk
      (round2 (pyMean [1 / 10, 9 / 50]))
      (pyMedian [1 / 10, 9 / 50])
      (round2 (popVarianceFrom (round2 (pyMean [1 / 10, 9 / 50])) [1 / 10, 9 / 50]))
      (round2R (Real.sqrt
        ((round2 (popVarianceFrom (round2 (pyMean [1 / 10, 9 / 50])) [1 / 10, 9 / 50]) : ℚ) : ℝ)))) ∧
    (calculate_statistics popSample4 "Población").std_dev =
      (if 0 < (calculate_statistics popSample4 "Población").variance then
        round2R (Real.sqrt (((calculate_statistics popSample4 "Población").variance : ℚ) : ℝ))
      else 0) :=
  ⟨C4_amended.1 densSample "density" "Densidad(hab/km²)" [1 / 10, 9 / 50] rfl
    strictSample_densSample (by simp), C4_amended.2.1 popSample4 "Población"⟩

/-- `String.toLower` written through the character list, for evaluation on
literals. -/
theorem toLower_spell (s : String) : s.toLower = String.mk (s.data.map Char.toLower) :=
  String.map_eq Char.toLower s

/-- True unless the record stores a number under "Región" (the one shape on
which Python's `.lower()` would raise); canonical records always satisfy
this.  -/
def regionIsStr (r : Record) : Bool :=
  match r.lookup "Región" with
  | some (Value.num _) => false
  | _ => true

/-- The region predicate of the filter, as a Boolean on records: the
defaulted region value lower-cased equals the lower-cased query. -/
def matchesRegion (region : String) (r : Record) : Bool :=
  match r.getD "Región" (Value.str "") with
  | Value.str s => s.toLower == region.toLower
  | Value.num _ => false

theorem filter_region_ok (region : String) :
    ∀ {data : List Record}, (∀ r ∈ data, regionIsStr r = true) →
      filter_countries_by_region data region = .ok (data.filter (matchesRegion region))
  | [], _ => rfl
  | r :: rest, h => by
    have hr := h r (List.mem_cons_self r rest)
    have hrest := filter_region_ok region (fun x hx => h x (List.mem_cons_of_mem r hx))
    unfold regionIsStr at hr
    rcases hlk : r.lookup "Región" with _ | v
    · have hd : r.getD "Región" (Value.str "") = Value.str "" := by
        unfold Record.getD; rw [hlk]; rfl
      simp only [filter_countries_by_region, hd, Value.lower, okBind, hrest,
        List.filter_cons, matchesRegion]
      by_cases hm : "".toLower = region.toLower
      · simp [hm, pureOk]
      · simp [hm, beq_iff_eq, pureOk]
    · rcases v with s | q
      · have hd : r.getD "Región" (Value.str "") = Value.str s := by
          unfold Record.getD; rw [hlk]; rfl
        simp only [filter_countries_by_region, hd, Value.lower, okBind, hrest,
          List.filter_cons, matchesRegion]
        by_cases hm : s.toLower = region.toLower
        · simp [hm, pureOk]
        · simp [hm, beq_iff_eq, pureOk]
      · rw [hlk] at hr; simp at hr

theorem filter_region_case_invariant {r1 r2 : String} (h : r1.toLower = r2.toLower) :
    ∀ data : List Record,
      filter_countries_by_region data r1 = filter_countries_by_region data r2
  | [] => rfl
  | r :: rest => by
    have ih := filter_region_case_invariant h rest
    simp only [filter_countries_by_region, h, ih]

/-- C8: the region filter is a case-insensitive equality match on each
record's (defaulted) region field; it returns exactly the matching records,
in input order (a sublist of the input), an empty list — not an error — when
nothing matches, and any two case variants of the region string produce
identical results. -/
theorem C8_region_filter :
    (∀ (data : List Record) (region : String),
      (∀ r ∈ data, regionIsStr r = true) →
      filter_countries_by_region data region = .ok (data.filter (matchesRegion region)) ∧
      (data.filter (matchesRegion region)).Sublist data) ∧
    (∀ (data : List Record) (r1 r2 : String), r1.toLower = r2.toLower →
      filter_countries_by_region data r1 = filter_countries_by_region data r2) :=
  ⟨fun _ region h => ⟨filter_region_ok region h, List.filter_sublist _⟩,
   fun data _ _ h => filter_region_case_invariant h data⟩

/-- C8 witness: the "americas" / "Americas" case variants on a concrete
two-region collection. -/
theorem C8_region_filter_witness :
    (filter_countries_by_region
        [[("Región", Value.str "Americas")], [("Región", Value.str "Europe")]]
        "americas" =
      .ok ([[("Región", Value.str "Americas")], [("Región", Value.str "Europe")]].filter
        (matchesRegion "americas"))) ∧
    filter_countries_by_region
        [[("Región", Value.str "Americas")], [("Región", Value.str "Europe")]]
        "americas" =
      filter_countries_by_region
        [[("Región", Value.str "Americas")], [("Región", Value.str "Europe")]]
        "Americas" :=
  ⟨(C8_region_filter.1 _ "americas" (by decide)).1,
   C8_region_filter.2 _ "americas" "Americas"
     (by rw [toLower_spell, toLower_spell]; decide)⟩

/-- The numeric value a record stores under key `k` (0 when absent — used
only under the `hasNumAt` hypothesis). -/
def numAt (r : Record) (k : String) : ℚ :=
  match r.lookup k with
  | some (Value.num q) => q
  | _ => 0

/-- True when the record stores a number under key `k`. -/
def hasNumAt (r : Record) (k : String) : Bool :=
  match r.lookup k with
  | some (Value.num _) => true
  | _ => false

theorem maxKey_eq {m : String} {r : Record} (h : hasNumAt r m = true) :
    maxKey m r = .ok (numAt r m) := by
  unfold hasNumAt at h
  unfold maxKey Record.getD numAt
  rcases hlk : r.lookup m with _ | v
  · rw [hlk] at h; simp at h
  · rcases v with s | q
    · rw [hlk] at h; simp at h
    · rfl

theorem minKey_eq {m : String} {r : Record} (h : hasNumAt r m = true) :
    minKey m r = .ok ((numAt r m : ℚ) : WithTop ℚ) := by
  unfold hasNumAt at h
  unfold minKey numAt
  rcases hlk : r.lookup m with _ | v
  · rw [hlk] at h; simp at h
  · rcases v with s | q
    · rw [hlk] at h; simp at h
    · rfl

theorem pyMaxGo_spec {K : Type} [LinearOrder K] {key : Record → Except PyErr K}
    {f : Record → K} :
    ∀ {l : List Record}, (∀ r ∈ l, key r = .ok (f r)) → ∀ best : Record,
      ∃ out, pyMaxGo key best (f best) l = .ok out ∧ (out = best ∨ out ∈ l) ∧
        f best ≤ f out ∧ ∀ r ∈ l, f r ≤ f out
  | [], _, best => ⟨best, rfl, .inl rfl, le_refl _, by simp⟩
  | r :: rest, h, best => by
    have hr := h r (List.mem_cons_self r rest)
    have ih := pyMaxGo_spec (l := rest) (fun x hx => h x (List.mem_cons_of_mem r hx))
    by_cases hlt : f best < f r
    · obtain ⟨out, heq, hmem, hle, hall⟩ := ih r
      refine ⟨out, ?_, ?_, le_trans hlt.le hle, ?_⟩
      · simp only [pyMaxGo, hr, okBind, if_pos hlt, heq]
      · right
        rcases hmem with h1 | h1
        · exact h1 ▸ List.mem_cons_self r rest
        · exact List.mem_cons_of_mem r h1
      · intro x hx
        rcases List.mem_cons.mp hx with h1 | h1
        · exact h1 ▸ hle
        · exact hall x h1
    · obtain ⟨out, heq, hmem, hle, hall⟩ := ih best
      refine ⟨out, ?_, ?_, hle, ?_⟩
      · simp only [pyMaxGo, hr, okBind, if_neg hlt, heq]
      · rcases hmem with h1 | h1
        · exact .inl h1
        · exact .inr (List.mem_cons_of_mem r h1)
      · intro x hx
        rcases List.mem_cons.mp hx with h1 | h1
        · exact h1 ▸ le_trans (not_lt.mp hlt) hle
        · exact hall x h1

theorem pyMinGo_spec {K : Type} [LinearOrder K] {key : Record → Except PyErr K}
    {f : Record → K} :
    ∀ {l : List Record}, (∀ r ∈ l, key r = .ok (f r)) → ∀ best : Record,
      ∃ out, pyMinGo key best (f best) l = .ok out ∧ (out = best ∨ out ∈ l) ∧
        f out ≤ f best ∧ ∀ r ∈ l, f out ≤ f r
  | [], _, best => ⟨best, rfl, .inl rfl, le_refl _, by simp⟩
  | r :: rest, h, best => by
    have hr := h r (List.mem_cons_self r rest)
    have ih := pyMinGo_spec (l := rest) (fun x hx => h x (List.mem_cons_of_mem r hx))
    by_cases hlt : f r < f best
    · obtain ⟨out, heq, hmem, hle, hall⟩ := ih r
      refine ⟨out, ?_, ?_, le_trans hle hlt.le, ?_⟩
      · simp only [pyMinGo, hr, okBind, if_pos hlt, heq]
      · right
        rcases hmem with h1 | h1
        · exact h1 ▸ List.mem_cons_self r rest
        · exact List.mem_cons_of_mem r h1
      · intro x hx
        rcases List.mem_cons.mp hx with h1 | h1
        · exact h1 ▸ hle
        · exact hall x h1
    · obtain ⟨out, heq, hmem, hle, hall⟩ := ih best
      refine ⟨out, ?_, ?_, hle, ?_⟩
      · simp only [pyMinGo, hr, okBind, if_neg hlt, heq]
      · rcases hmem with h1 | h1
        · exact .inl h1
        · exact .inr (List.mem_cons_of_mem r h1)
      · intro x hx
        rcases List.mem_cons.mp hx with h1 | h1
        · exact h1 ▸ le_trans hle (not_lt.mp hlt)
        · exact hall x h1

theorem pyMax_spec {K : Type} [LinearOrder K] {key : Record → Except PyErr K}
    {f : Record → K} {b : Record} {rest : List Record}
    (h : ∀ r ∈ b :: rest, key r = .ok (f r)) :
    ∃ out, pyMax key (b :: rest) = .ok out ∧ out ∈ b :: rest ∧
      ∀ r ∈ b :: rest, f r ≤ f out := by
  have hb := h b (List.mem_cons_self b rest)
  obtain ⟨out, heq, hmem, hle, hall⟩ :=
    pyMaxGo_spec (fun x hx => h x (List.mem_cons_of_mem b hx)) b
  refine ⟨out, ?_, ?_, ?_⟩
  · simp only [pyMax, hb, okBind, heq]
  · rcases hmem with h1 | h1
    · exact h1 ▸ List.mem_cons_self b rest
    · exact List.mem_cons_of_mem b h1
  · intro x hx
    rcases List.mem_cons.mp hx with h1 | h1
    · exact h1 ▸ hle
    · exact hall x h1

theorem pyMin_spec {K : Type} [LinearOrder K] {key : Record → Except PyErr K}
    {f : Record → K} {b : Record} {rest : List Record}
    (h : ∀ r ∈ b :: rest, key r = .ok (f r)) :
    ∃ out, pyMin key (b :: rest) = .ok out ∧ out ∈ b :: rest ∧
      ∀ r ∈ b :: rest, f out ≤ f r := by
  have hb := h b (List.mem_cons_self b rest)
  obtain ⟨out, heq, hmem, hle, hall⟩ :=
    pyMinGo_spec (fun x hx => h x (List.mem_cons_of_mem b hx)) b
  refine ⟨out, ?_, ?_, ?_⟩
  · simp only [pyMin, hb, okBind, heq]
  · rcases hmem with h1 | h1
    · exact h1 ▸ List.mem_cons_self b rest
    · exact List.mem_cons_of_mem b h1
  · intro x hx
    rcases List.mem_cons.mp hx with h1 | h1
    · exact h1 ▸ hle
    · exact hall x h1

/-- The spec's extreme-value scenario: records with populations
`[10, 50, 5]`. -/
def extremeSample : List Record :=
  [[("Nombre", Value.str "A"), ("Población", Value.num 10)],
   [("Nombre", Value.str "B"), ("Población", Value.num 50)],
   [("Nombre", Value.str "C"), ("Población", Value.num 5)]]

/-- C9: find_extreme_values on an empty collection gives the explicit no-data
result (empty max/min dicts, no error); on a nonempty collection of records
carrying the metric it returns a record attaining the maximum and a record
attaining the minimum of the metric; on the scenario populations
`[10, 50, 5]` it picks the population-50 record as max and the population-5
record as min. -/
theorem C9_extreme_values :
    (∀ metric : String, find_extreme_values [] metric = ExtremeResult.mk [] []) ∧
    (∀ (b : Record) (rest : List Record) (metric : String),
      (∀ r ∈ b :: rest, hasNumAt r metric = true) →
      ∃ rmax rmin, find_extreme_values (b :: rest) metric = ExtremeResult.mk rmax rmin ∧
        rmax ∈ b :: rest ∧ rmin ∈ b :: rest ∧
        (∀ r ∈ b :: rest, numAt r metric ≤ numAt rmax metric) ∧
        (∀ r ∈ b :: rest, numAt rmin metric ≤ numAt r metric)) ∧
    find_extreme_values extremeSample "Población" =
      ExtremeResult.mk [("Nombre", Value.str "B"), ("Población", Value.num 50)]
        [("Nombre", Value.str "C"), ("Población", Value.num 5)] := by
  refine ⟨fun _ => rfl, ?_, by decide⟩
  intro b rest metric h
  obtain ⟨mx, hmx, hmxmem, hmxall⟩ :=
    pyMax_spec (f := fun r => numAt r metric) (fun r hr => maxKey_eq (h r hr))
  obtain ⟨mn, hmn, hmnmem, hmnall⟩ :=
    pyMin_spec (f := fun r => ((numAt r metric : ℚ) : WithTop ℚ))
      (fun r hr => minKey_eq (h r hr))
  refine ⟨mx, mn, ?_, hmxmem, hmnmem, hmxall, ?_⟩
  · simp only [find_extreme_values, if_neg (List.cons_ne_nil b rest), hmx, hmn,
      okBind, Except.map_ok]
    rfl
  · intro r hr
    exact_mod_cast hmnall r hr

/-- C9 witness: the universal part applied to the concrete scenario
collection. -/
theorem C9_extreme_values_witness :
    ∃ rmax rmin,
      find_extreme_values extremeSample "Población" = ExtremeResult.mk rmax rmin ∧
      rmax ∈ extremeSample ∧ rmin ∈ extremeSample ∧
      (∀ r ∈ extremeSample, numAt r "Población" ≤ numAt rmax "Población") ∧
      (∀ r ∈ extremeSample, numAt rmin "Población" ≤ numAt r "Población") :=
  C9_extreme_values.2.1
    [("Nombre", Value.str "A"), ("Población", Value.num 10)]
    [[("Nombre", Value.str "B"), ("Población", Value.num 50)],
     [("Nombre", Value.str "C"), ("Población", Value.num 5)]]
    "Población" (by decide)

/-- True when the record stores a string under "Nombre". -/
def hasStrNombre (r : Record) : Bool :=
  match r.lookup "Nombre" with
  | some (Value.str _) => true
  | _ => false

/-- The lookup predicate of find_country_by_name, as a Boolean on records. -/
def nameMatches (n : String) (r : Record) : Bool :=
  match r.lookup "Nombre" with
  | some (Value.str s) => s.toLower == n.toLower
  | _ => false

theorem find_country_ok (n : String) :
    ∀ {data : List Record}, (∀ r ∈ data, hasStrNombre r = true) →
      find_country_by_name data n = .ok (data.find? (nameMatches n))
  | [], _ => rfl
  | r :: rest, h => by
    have hr := h r (List.mem_cons_self r rest)
    have ih := find_country_ok n (fun x hx => h x (List.mem_cons_of_mem r hx))
    unfold hasStrNombre at hr
    rcases hlk : r.lookup "Nombre" with _ | v
    · rw [hlk] at hr; simp at hr
    · rcases v with s | q
      · simp only [find_country_by_name, hlk, Value.lower, okBind]
        by_cases hm : s.toLower = n.toLower
        · have hp : nameMatches n r = true := by
            unfold nameMatches; rw [hlk]; simp [hm]
          simp [hm, List.find?_cons_of_pos _ hp, pureOk]
        · have hp : nameMatches n r = false := by
            unfold nameMatches; rw [hlk]; simp [hm]
          rw [show List.find? (nameMatches n) (r :: rest) =
            List.find? (nameMatches n) rest from
              List.find?_cons_of_neg _ (by simp [hp])]
          simp [hm, ih]
      · rw [hlk] at hr; simp at hr

/-- C10 (amended): over a collection in which every record holds a *string*
name field, find_country_by_name never raises and returns the first record
(in input order) whose name equals the query case-insensitively, or None if
none does; mere presence of the field is not enough (a numeric name makes
`.lower()` raise), and a record lacking the field, met before the first
match, makes the direct indexing raise its key-access error. -/
theorem C10_amended :
    (∀ (data : List Record) (n : String), (∀ r ∈ data, hasStrNombre r = true) →
      find_country_by_name data n = .ok (data.find? (nameMatches n))) ∧
    find_country_by_name
      [[("Población", Value.num 1)], [("Nombre", Value.str "Chile")]] "chile" =
      .error PyErr.keyError :=
  ⟨fun _ n h => find_country_ok n h, rfl⟩

/-- C10 amended witness: a concrete successful case-insensitive lookup. -/
theorem C10_amended_witness :
    find_country_by_name [[("Nombre", Value.str "Chile")]] "CHILE" =
      .ok ([[("Nombre", Value.str "Chile")]].find? (nameMatches "CHILE")) :=
  C10_amended.1 [[("Nombre", Value.str "Chile")]] "CHILE" (by decide)

/-- C10 counterexample: a record that *has* the name field, but with a
numeric value, makes the lookup raise (`AttributeError` at `.lower()`) even
though the claim's precondition — every record has the name field — holds; so
"has the name field" alone does not ensure the lookup never raises. -/
theorem C10_counterexample :
    find_country_by_name [[("Nombre", Value.num 5)]] "x" = .error PyErr.attrError ∧
    (∀ r ∈ [[("Nombre", Value.num 5)]], ((r : Record).lookup "Nombre").isSome = true) ∧
    (∀ o : Option Record,
      Except.error (ε := PyErr) PyErr.attrError ≠ Except.ok o) :=
  ⟨rfl, by decide, fun o h => Except.noConfusion h⟩

/-- The name value of a record with a present "Nombre" key (the default is
never used under the `isSome` hypothesis). -/
def nombreOf (r : Record) : Value :=
  (r.lookup "Nombre").getD (Value.str "N/A")

/-- Each record paired with its sort key, in input order (the decoration the
sort works on). -/
def keyedBy (f : String) (data : List Record) : List (ℚ × Record) :=
  data.map (fun r => (numAt r f, r))

/-- The stable descending sort of the decorated records. -/
def rankedBy (f : String) (data : List Record) : List (ℚ × Record) :=
  (keyedBy f data).mergeSort descLE

theorem numField_eq {r : Record} {f : String} (h : hasNumAt r f = true) :
    numField r f = .ok (numAt r f) := by
  unfold hasNumAt at h
  unfold numField numAt
  rcases hlk : r.lookup f with _ | v
  · rw [hlk] at h; simp at h
  · rcases v with s | q
    · rw [hlk] at h; simp at h
    · rfl

theorem decorate_ok {f : String} :
    ∀ {data : List Record}, (∀ r ∈ data, hasNumAt r f = true) →
      decorate f data = .ok (keyedBy f data)
  | [], _ => rfl
  | r :: rest, h => by
    have hr := numField_eq (h r (List.mem_cons_self r rest))
    have ih := decorate_ok (fun x hx => h x (List.mem_cons_of_mem r hx))
    simp only [decorate, hr, okBind, ih, keyedBy, List.map_cons, pureOk]

theorem projectTop_ok :
    ∀ {l : List (ℚ × Record)}, (∀ p ∈ l, (p.2.lookup "Nombre").isSome = true) →
      projectTop l = .ok (l.map (fun p => TopEntry.mk (nombreOf p.2) p.1))
  | [], _ => rfl
  | p :: rest, h => by
    have hp := h p (List.mem_cons_self p rest)
    have ih := projectTop_ok (fun x hx => h x (List.mem_cons_of_mem p hx))
    rcases hlk : p.2.lookup "Nombre" with _ | v
    · rw [hlk] at hp; simp at hp
    · have hn : nombreOf p.2 = v := by unfold nombreOf; rw [hlk]; rfl
      simp only [projectTop, hlk, ih, mapOk, List.map_cons, hn]

theorem descLE_trans : ∀ a b c : ℚ × Record, descLE a b → descLE b c → descLE a c := by
  intro a b c hab hbc
  simp only [descLE, decide_eq_true_eq] at *
  exact le_trans hbc hab

theorem descLE_total : ∀ a b : ℚ × Record, descLE a b || descLE b a := by
  intro a b
  simp only [descLE, Bool.or_eq_true, decide_eq_true_eq]
  exact le_total b.1 a.1

theorem rankedBy_sorted (f : String) (data : List Record) :
    (rankedBy f data).Pairwise (fun a b => descLE a b = true) :=
  List.sorted_mergeSort descLE_trans descLE_total (keyedBy f data)

theorem rankedBy_perm (f : String) (data : List Record) :
    List.Perm (rankedBy f data) (keyedBy f data) :=
  List.mergeSort_perm (keyedBy f data) descLE

theorem rankedBy_stable (f : String) (data : List Record) (q : ℚ) :
    (rankedBy f data).filter (fun p => decide (p.1 = q)) =
    (keyedBy f data).filter (fun p => decide (p.1 = q)) := by
  have hpair : ((keyedBy f data).filter (fun p => decide (p.1 = q))).Pairwise
      (fun a b => descLE a b = true) := by
    apply List.pairwise_of_forall_mem_list
    intro a ha b hb
    have ha1 : a.1 = q := by simpa using (List.mem_filter.mp ha).2
    have hb1 : b.1 = q := by simpa using (List.mem_filter.mp hb).2
    simp [descLE, ha1, hb1]
  have h1 : List.Sublist ((keyedBy f data).filter (fun p => decide (p.1 = q)))
      (rankedBy f data) :=
    List.sublist_mergeSort descLE_trans descLE_total hpair (List.filter_sublist _)
  have h2 : List.Sublist
      (((keyedBy f data).filter (fun p => decide (p.1 = q))).filter
        (fun p => decide (p.1 = q)))
      ((rankedBy f data).filter (fun p => decide (p.1 = q))) :=
    h1.filter _
  have h3 : ((keyedBy f data).filter (fun p => decide (p.1 = q))).filter
      (fun p => decide (p.1 = q)) =
      (keyedBy f data).filter (fun p => decide (p.1 = q)) :=
    List.filter_eq_self.mpr (fun a ha => (List.mem_filter.mp ha).2)
  have hlen : ((rankedBy f data).filter (fun p => decide (p.1 = q))).length =
      ((keyedBy f data).filter (fun p => decide (p.1 = q))).length :=
    ((rankedBy_perm f data).filter _).length_eq
  exact ((h3 ▸ h2).eq_of_length hlen.symm).symm

theorem topN_ok (data : List Record) (metric f : String) (n : ℕ)
    (hm : rankField metric = some f)
    (h1 : ∀ r ∈ data, hasNumAt r f = true)
    (h2 : ∀ r ∈ data, (r.lookup "Nombre").isSome = true) :
    topN data metric n = .ok (((rankedBy f data).take n).map
      (fun p => TopEntry.mk (nombreOf p.2) p.1)) := by
  have hd := decorate_ok h1
  have hnames : ∀ p ∈ (rankedBy f data).take n, (p.2.lookup "Nombre").isSome = true := by
    intro p hp
    have hp3 : p ∈ keyedBy f data :=
      List.mem_mergeSort.mp (List.mem_of_mem_take hp)
    obtain ⟨r, hr, heq⟩ := List.mem_map.mp hp3
    have : p.2 = r := by rw [← heq]
    exact this ▸ h2 r hr
  have hproj := projectTop_ok hnames
  simp only [topN, hm, hd]
  rw [show (keyedBy f data).mergeSort descLE = rankedBy f data from rfl, hproj]

/-- C7: for every collection of records carrying the metric field and a name,
every ranking metric, and every `n`, the top-N computation succeeds and
returns exactly the first `n` entries of the stable descending sort,
projected to `{name, value}` pairs; the output length is
`min n (count records)`, the output is never out of descending order by the
metric, the sorted decoration is a permutation of the input decoration, and
records with equal keys keep their relative input order (the sorted list
filtered to any one key value equals the input list filtered the same way);
the source's `top_10` is this computation with the literal slice bound 10. -/
theorem C7_top_n (data : List Record) (metric f : String) (n : ℕ)
    (hm : rankField metric = some f)
    (h1 : ∀ r ∈ data, hasNumAt r f = true)
    (h2 : ∀ r ∈ data, (r.lookup "Nombre").isSome = true) :
    topN data metric n = .ok (((rankedBy f data).take n).map
      (fun p => TopEntry.mk (nombreOf p.2) p.1)) ∧
    (((rankedBy f data).take n).map
      (fun p => TopEntry.mk (nombreOf p.2) p.1)).length = min n data.length ∧
    (((rankedBy f data).take n).map
      (fun p => TopEntry.mk (nombreOf p.2) p.1)).Pairwise
      (fun a b => b.metric_value ≤ a.metric_value) ∧
    List.Perm (rankedBy f data) (keyedBy f data) ∧
    (∀ q : ℚ, (rankedBy f data).filter (fun p => decide (p.1 = q)) =
      (keyedBy f data).filter (fun p => decide (p.1 = q))) ∧
    top_10 data metric = topN data metric 10 := by
  refine ⟨topN_ok data metric f n hm h1 h2, ?_, ?_, rankedBy_perm f data,
    rankedBy_stable f data, rfl⟩
  · simp [rankedBy, keyedBy]
  · have hs := rankedBy_sorted f data
    have ht : (((rankedBy f data).take n)).Pairwise (fun a b => descLE a b = true) :=
      hs.sublist (List.take_sublist n _)
    rw [List.pairwise_map]
    exact ht.imp (fun hab => by simpa [descLE] using hab)

/-- A concrete ranking collection with a tie on the metric. -/
def topSample : List Record :=
  [[("Nombre", Value.str "A"), ("Población", Value.num 1)],
   [("Nombre", Value.str "B"), ("Población", Value.num 3)],
   [("Nombre", Value.str "C"), ("Población", Value.num 3)]]

/-- C7 witness: the top-N properties at a concrete collection (with a tie)
and `n = 2`. -/
theorem C7_top_n_witness :
    topN topSample "population" 2 = .ok (((rankedBy "Población" topSample).take 2).map
      (fun p => TopEntry.mk (nombreOf p.2) p.1)) ∧
    (((rankedBy "Población" topSample).take 2).map
      (fun p => TopEntry.mk (nombreOf p.2) p.1)).length = min 2 topSample.length ∧
    (((rankedBy "Población" topSample).take 2).map
      (fun p => TopEntry.mk (nombreOf p.2) p.1)).Pairwise
      (fun a b => b.metric_value ≤ a.metric_value) ∧
    List.Perm (rankedBy "Población" topSample) (keyedBy "Población" topSample) ∧
    (∀ q : ℚ, (rankedBy "Población" topSample).filter (fun p => decide (p.1 = q)) =
      (keyedBy "Población" topSample).filter (fun p => decide (p.1 = q))) ∧
    top_10 topSample "population" = topN topSample "population" 10 :=
  C7_top_n topSample "population" "Población" 2 rfl (by decide) (by decide)

end Dashboard
